import Mathlib

/-!
Verification of the adaptive assessment and resilience layer of the
Chinese-Tutor application: the complexity scorer, proficiency assessor,
topic tracker, retrying transport, rate limiter and quota-safe storage
are embedded as executable Lean definitions, and the documented
behavioural properties are proved (or refuted) against them.

Modelling conventions: JavaScript numbers are embedded as rationals
where fractional values occur and as naturals where only integers occur;
timers and network calls are embedded as explicit event lists; the
browser storage API is embedded as a capacity-bounded key/value store.
-/

set_option maxHeartbeats 1000000

namespace ChineseTutor

/-- Characters matched by the regular-expression range u4e00 to u9fff for
CJK unified ideographs, used by the app to detect Chinese text. -/
def isChineseChar (c : Char) : Bool :=
  0x4e00 ≤ c.toNat && c.toNat ≤ 0x9fff

/-- Whitespace characters recognised by the JavaScript whitespace
character class used in the word-splitting regex. -/
def isJsWhitespace (c : Char) : Bool :=
  c = ' ' || c = '\t' || c = '\n' || c = '\r' ||
  c = Char.ofNat 0x0b || c = Char.ofNat 0x0c ||
  c = Char.ofNat 0xa0 || c = Char.ofNat 0x1680 ||
  (0x2000 ≤ c.toNat && c.toNat ≤ 0x200a) ||
  c = Char.ofNat 0x2028 || c = Char.ofNat 0x2029 ||
  c = Char.ofNat 0x202f || c = Char.ofNat 0x205f ||
  c = Char.ofNat 0x3000 || c = Char.ofNat 0xfeff

/-- Splitting of a character list at maximal whitespace runs, as performed
by the JavaScript split over the whitespace regex: an empty piece appears
at an end when the text starts or ends with whitespace, and the empty text
yields a single empty piece. The second argument is the current piece
accumulated in reverse, the third records whether the previous character
was whitespace (so that a run gives a single cut). -/
def splitWsRun : List Char → List Char → Bool → List (List Char)
  | [], cur, _ => [cur.reverse]
  | c :: rest, cur, afterWs =>
    if isJsWhitespace c then
      if afterWs then splitWsRun rest [] true
      else cur.reverse :: splitWsRun rest [] true
    else splitWsRun rest (c :: cur) false

/-- Embedding of the JavaScript expression that splits a text on runs of
whitespace; its length is the word count used by the complexity scorer. -/
def splitWs (text : String) : List (List Char) :=
  splitWsRun text.data [] false

/-- Word count of a text: the length of the whitespace split. -/
def wordCount (text : String) : Nat :=
  (splitWs text).length

/-- Test for the six full-width sentence punctuation marks (comma, full
stop, exclamation mark, question mark, semicolon, colon) matched by the
complexity scorer, source symbol hasComplexStructure. -/
def hasComplexStructure (text : String) : Bool :=
  text.data.any fun c =>
    c = Char.ofNat 0xff0c || c = Char.ofNat 0x3002 ||
    c = Char.ofNat 0xff01 || c = Char.ofNat 0xff1f ||
    c = Char.ofNat 0xff1b || c = Char.ofNat 0xff1a

/-- Number of CJK-ideograph characters in a text. -/
def chineseCharCount (text : String) : Nat :=
  (text.data.filter isChineseChar).length

/-- Constants of the COMPLEXITY_SCORING configuration object. -/
def COMPLEXITY_MAX_SCORE : ℚ := 10

/-- Complexity constant CHARS_PER_POINT. -/
def COMPLEXITY_CHARS_PER_POINT : ℚ := 5

/-- Complexity constant MAX_CHAR_POINTS. -/
def COMPLEXITY_MAX_CHAR_POINTS : ℚ := 3

/-- Complexity constant WORD_COUNT_THRESHOLD. -/
def COMPLEXITY_WORD_COUNT_THRESHOLD : Nat := 10

/-- Complexity constant COMPLEX_STRUCTURE_BONUS. -/
def COMPLEXITY_COMPLEX_STRUCTURE_BONUS : ℚ := 2

/-- Embedding of calculateComplexity from ChatInterface: character points
capped at three are added when Chinese characters are present, one point
for a word count above ten, two points for sentence punctuation, and the
total is capped at ten. -/
def calculateComplexity (text : String) : ℚ :=
  let chineseChars := chineseCharCount text
  let wc := wordCount text
  let complexStructure := hasComplexStructure text
  let score0 : ℚ := 0
  let score1 :=
    if chineseChars > 0 then
      score0 + min ((chineseChars : ℚ) / COMPLEXITY_CHARS_PER_POINT) COMPLEXITY_MAX_CHAR_POINTS
    else score0
  let score2 := if wc > COMPLEXITY_WORD_COUNT_THRESHOLD then score1 + 1 else score1
  let score3 :=
    if complexStructure then score2 + COMPLEXITY_COMPLEX_STRUCTURE_BONUS else score2
  min score3 COMPLEXITY_MAX_SCORE

/-- The conditional guard on the character-point term is redundant: when no
Chinese character occurs the capped ratio is zero anyway. -/
lemma charPoints_if_eq (n : Nat) :
    (if n > 0 then (0 : ℚ) + min ((n : ℚ) / 5) 3
     else (0 : ℚ)) = min ((n : ℚ) / 5) 3 := by
  rcases Nat.eq_zero_or_pos n with h | h
  · subst h
    norm_num
  · simp [h]

/-- Closed form of the complexity score, before the final cap. -/
lemma calculateComplexity_eq (text : String) :
    calculateComplexity text =
      min (min ((chineseCharCount text : ℚ) / 5) 3
        + (if wordCount text > 10 then (1 : ℚ) else 0)
        + (if hasComplexStructure text then (2 : ℚ) else 0)) 10 := by
  unfold calculateComplexity
  simp only [COMPLEXITY_MAX_SCORE, COMPLEXITY_CHARS_PER_POINT, COMPLEXITY_MAX_CHAR_POINTS,
    COMPLEXITY_WORD_COUNT_THRESHOLD, COMPLEXITY_COMPLEX_STRUCTURE_BONUS, charPoints_if_eq]
  split_ifs <;> ring_nf

/-- The capped character-point term is nonnegative. -/
lemma charPoints_nonneg (n : Nat) :
    (0 : ℚ) ≤ min ((n : ℚ) / 5) 3 := by
  apply le_min
  · positivity
  · norm_num

/-- The complexity score never exceeds six: three character points plus
one word-count point plus two punctuation points. -/
lemma calculateComplexity_le_six (text : String) :
    calculateComplexity text ≤ 6 := by
  rw [calculateComplexity_eq]
  have h1 : min ((chineseCharCount text : ℚ) / 5) 3 ≤ 3 := min_le_right _ _
  have h2 : (if wordCount text > 10 then (1 : ℚ) else 0) ≤ 1 := by split_ifs <;> norm_num
  have h3 : (if hasComplexStructure text then (2 : ℚ) else 0) ≤ 2 := by split_ifs <;> norm_num
  have := min_le_left (min ((chineseCharCount text : ℚ) / 5) 3
        + (if wordCount text > 10 then (1 : ℚ) else 0)
        + (if hasComplexStructure text then (2 : ℚ) else 0)) (10 : ℚ)
  linarith

/-- The complexity score is nonnegative. -/
lemma calculateComplexity_nonneg (text : String) :
    0 ≤ calculateComplexity text := by
  rw [calculateComplexity_eq]
  have h1 := charPoints_nonneg (chineseCharCount text)
  have h2 : (0 : ℚ) ≤ (if wordCount text > 10 then (1 : ℚ) else 0) := by split_ifs <;> norm_num
  have h3 : (0 : ℚ) ≤ (if hasComplexStructure text then (2 : ℚ) else 0) := by
    split_ifs <;> norm_num
  apply le_min
  · linarith
  · norm_num

/-- C3: the complexity score equals the documented formula, namely capped
character points plus the word-count point plus the punctuation bonus
clamped to the interval from zero to ten, and consequently the returned
score always lies in that interval. -/
theorem claim_c3_complexity_formula_and_range (text : String) :
    calculateComplexity text =
      min (max (min ((chineseCharCount text : ℚ) / 5) 3
        + (if wordCount text > 10 then (1 : ℚ) else 0)
        + (if hasComplexStructure text then (2 : ℚ) else 0)) 0) 10
    ∧ 0 ≤ calculateComplexity text ∧ calculateComplexity text ≤ 10 := by
  have hsum : (0 : ℚ) ≤ min ((chineseCharCount text : ℚ) / 5) 3
      + (if wordCount text > 10 then (1 : ℚ) else 0)
      + (if hasComplexStructure text then (2 : ℚ) else 0) := by
    have h1 := charPoints_nonneg (chineseCharCount text)
    have h2 : (0 : ℚ) ≤ (if wordCount text > 10 then (1 : ℚ) else 0) := by
      split_ifs <;> norm_num
    have h3 : (0 : ℚ) ≤ (if hasComplexStructure text then (2 : ℚ) else 0) := by
      split_ifs <;> norm_num
    linarith
  refine ⟨?_, calculateComplexity_nonneg text, ?_⟩
  · rw [calculateComplexity_eq, max_eq_left hsum]
  · calc calculateComplexity text ≤ 6 := calculateComplexity_le_six text
      _ ≤ 10 := by norm_num

/-- Lowercasing as performed by the JavaScript toLowerCase call on the
characters occurring in the keyword lists (ASCII letters are lowered, CJK
characters are unchanged). -/
def jsToLower (s : String) : String :=
  ⟨s.data.map Char.toLower⟩

/-- Substring test on character lists: the needle occurs contiguously in
the haystack. An empty needle always occurs. -/
def isSubListOf (needle : List Char) : List Char → Bool
  | [] => needle.isEmpty
  | c :: rest => needle.isPrefixOf (c :: rest) || isSubListOf needle rest

/-- Embedding of the JavaScript includes call. -/
def strIncludes (hay needle : String) : Bool :=
  isSubListOf needle.data hay.data

/-- Case-insensitive containment, as in the source pattern
lowercased haystack includes lowercased keyword. -/
def strIncludesCI (hay needle : String) : Bool :=
  strIncludes (jsToLower hay) (jsToLower needle)

/-- The fixed bilingual list of correction-marker phrases from
detectErrors in ChatInterface. -/
def errorKeywords : List String :=
  ["正确的说法是", "应该说", "更好的表达是", "correct way",
   "should be", "mistake", "error", "错误", "不对"]

/-- Embedding of detectErrors: the number of correction-marker keywords
contained (case-insensitively) in the tutor reply. -/
def detectErrors (aiResponse : String) : Nat :=
  (errorKeywords.filter fun kw => strIncludesCI aiResponse kw).length

/-- Test whether a text contains at least one CJK-ideograph character. -/
def containsChinese (text : String) : Bool :=
  text.data.any isChineseChar

/-- The four proficiency tiers. -/
inductive Level
  | beginner
  | elementary
  | intermediate
  | advanced
  deriving DecidableEq, Repr

/-- Embedding of the UserLevel record stored by the assessor. The
timestamp lastAssessed is embedded as a natural number. -/
structure UserLevel where
  level : Level
  hskLevel : Nat
  confidence : ℚ
  strengths : List String
  weaknesses : List String
  lastAssessed : Nat
  deriving DecidableEq, Repr

/-- Assessment constant MIN_INTERACTIONS. -/
def MIN_INTERACTIONS : Nat := 3

/-- Assessment constant SUCCESS_RATE_ADVANCED. -/
def SUCCESS_RATE_ADVANCED : ℚ := 0.8

/-- Assessment constant SUCCESS_RATE_INTERMEDIATE. -/
def SUCCESS_RATE_INTERMEDIATE : ℚ := 0.6

/-- Assessment constant SUCCESS_RATE_ELEMENTARY. -/
def SUCCESS_RATE_ELEMENTARY : ℚ := 0.4

/-- Assessment constant COMPLEXITY_ADVANCED. -/
def COMPLEXITY_ADVANCED : ℚ := 6

/-- Assessment constant COMPLEXITY_INTERMEDIATE. -/
def COMPLEXITY_INTERMEDIATE : ℚ := 4

/-- Assessment constant COMPLEXITY_ELEMENTARY. -/
def COMPLEXITY_ELEMENTARY : ℚ := 2

/-- Assessment constant HSK_ADVANCED. -/
def HSK_ADVANCED : Nat := 5

/-- Assessment constant HSK_INTERMEDIATE. -/
def HSK_INTERMEDIATE : Nat := 3

/-- Assessment constant HSK_ELEMENTARY. -/
def HSK_ELEMENTARY : Nat := 2

/-- Assessment constant HSK_BEGINNER. -/
def HSK_BEGINNER : Nat := 1

/-- Vocabulary threshold GROWING. -/
def VOCAB_GROWING : Nat := 20

/-- Vocabulary threshold LIMITED. -/
def VOCAB_LIMITED : Nat := 10

/-- Error threshold HIGH_ERRORS. -/
def HIGH_ERRORS : Nat := 3

/-- Success threshold GOOD. -/
def SUCCESS_GOOD : ℚ := 0.7

/-- Success threshold POOR. -/
def SUCCESS_POOR : ℚ := 0.5

/-- Embedding of determineStrengths: three independent threshold checks,
in source push order. -/
def determineStrengths (successRate complexity : ℚ) (vocabSize : Nat) : List String :=
  (if successRate > SUCCESS_GOOD then ["Good comprehension"] else []) ++
  (if complexity > COMPLEXITY_MAX_CHAR_POINTS + 2 then ["Complex sentence structure"] else []) ++
  (if vocabSize > VOCAB_GROWING then ["Growing vocabulary"] else [])

/-- Embedding of determineWeaknesses: three independent threshold checks,
in source push order; the first check uses the error-signal count of the
current reply, not the accumulated error counter. -/
def determineWeaknesses (errors : Nat) (successRate : ℚ) (vocabSize : Nat) : List String :=
  (if errors > HIGH_ERRORS then ["Grammar accuracy"] else []) ++
  (if successRate < SUCCESS_POOR then ["Overall fluency"] else []) ++
  (if vocabSize < VOCAB_LIMITED then ["Limited vocabulary"] else [])

/-- Success rate as computed in updateUserLevel: successes over total
interactions, zero when there has been no interaction. -/
def successRateOf (successfulResponses errorCount : Nat) : ℚ :=
  if successfulResponses + errorCount > 0 then
    (successfulResponses : ℚ) / ((successfulResponses + errorCount : Nat) : ℚ)
  else 0

/-- The tier ladder of updateUserLevel: three guarded branches from
advanced down to elementary, with beginner as the default, each branch
carrying its fixed standardized level and confidence. -/
def selectTier (successRate complexity : ℚ) : Level × Nat × ℚ :=
  if successRate > SUCCESS_RATE_ADVANCED ∧ complexity > COMPLEXITY_ADVANCED then
    (Level.advanced, HSK_ADVANCED, 0.9)
  else if successRate > SUCCESS_RATE_INTERMEDIATE ∧ complexity > COMPLEXITY_INTERMEDIATE then
    (Level.intermediate, HSK_INTERMEDIATE, 0.8)
  else if successRate > SUCCESS_RATE_ELEMENTARY ∧ complexity > COMPLEXITY_ELEMENTARY then
    (Level.elementary, HSK_ELEMENTARY, 0.7)
  else
    (Level.beginner, HSK_BEGINNER, 0.5)

/-- Embedding of updateUserLevel from ChatInterface: below the
minimum-interaction threshold nothing is produced; otherwise the tier
ladder is evaluated on the accumulated success rate and the complexity of
the current message, and a full profile is assembled. -/
def updateUserLevel (successfulResponses errorCount vocabSize : Nat)
    (complexity : ℚ) (errors : Nat) (now : Nat) : Option UserLevel :=
  if successfulResponses + errorCount < MIN_INTERACTIONS then none
  else
    let successRate := successRateOf successfulResponses errorCount
    let avgComplexity := complexity
    let t := selectTier successRate avgComplexity
    some ⟨t.1, t.2.1, t.2.2,
      determineStrengths successRate avgComplexity vocabSize,
      determineWeaknesses errors successRate vocabSize,
      now⟩

/-- State of the assessor: the two outcome counters, the size of the
learned-vocabulary set, and the current profile. -/
structure AssessState where
  successCount : Nat
  errorCount : Nat
  vocabSize : Nat
  userLevel : Option UserLevel
  deriving DecidableEq, Repr

/-- Embedding of one assessment step (analyzeUserLevel): the counter
updates are scheduled React state updates while updateUserLevel runs in
the closure of the current render, so the threshold test and the success
rate read the counters as they were before this exchange is recorded. -/
def analyzeUserLevel (s : AssessState) (userMessage aiResponse : String) (now : Nat) :
    AssessState :=
  let hasChineseInput := containsChinese userMessage
  let complexityScore := calculateComplexity userMessage
  let errorIndicators := detectErrors aiResponse
  let newErrorCount := if errorIndicators > 0 then s.errorCount + 1 else s.errorCount
  let newSuccessCount :=
    if errorIndicators > 0 then s.successCount
    else if hasChineseInput then s.successCount + 1
    else s.successCount
  let newUserLevel :=
    match updateUserLevel s.successCount s.errorCount s.vocabSize complexityScore
        errorIndicators now with
    | some lvl => some lvl
    | none => s.userLevel
  ⟨newSuccessCount, newErrorCount, s.vocabSize, newUserLevel⟩

/-- C1: the assessment step applies the counter-update rule on every
exchange; while the accumulated interaction total is below three the level
computation returns nothing and the profile is unchanged, and a profile is
produced only once the total has reached three. -/
theorem claim_c1_min_interactions_gate (s : AssessState) (m a : String) (now : Nat) :
    ((analyzeUserLevel s m a now).errorCount =
        if detectErrors a > 0 then s.errorCount + 1 else s.errorCount)
    ∧ ((analyzeUserLevel s m a now).successCount =
        if detectErrors a > 0 then s.successCount
        else if containsChinese m then s.successCount + 1 else s.successCount)
    ∧ (s.successCount + s.errorCount < 3 →
        updateUserLevel s.successCount s.errorCount s.vocabSize (calculateComplexity m)
          (detectErrors a) now = none
        ∧ (analyzeUserLevel s m a now).userLevel = s.userLevel)
    ∧ (∀ lvl, updateUserLevel s.successCount s.errorCount s.vocabSize (calculateComplexity m)
          (detectErrors a) now = some lvl → 3 ≤ s.successCount + s.errorCount) := by
  have hnone : s.successCount + s.errorCount < 3 →
      updateUserLevel s.successCount s.errorCount s.vocabSize (calculateComplexity m)
        (detectErrors a) now = none := by
    intro h
    simp [updateUserLevel, MIN_INTERACTIONS, h]
  refine ⟨?_, ?_, fun h => ⟨hnone h, ?_⟩, ?_⟩
  · rfl
  · rfl
  · simp only [analyzeUserLevel]
    rw [hnone h]
  · intro lvl hlvl
    by_contra hlt
    rw [hnone (by omega)] at hlvl
    exact absurd hlvl (by simp)

/-- C1 witness: with two recorded interactions, a further exchange yields
no profile and leaves the profile component unchanged. -/
theorem claim_c1_witness :
    updateUserLevel 1 1 0 (calculateComplexity "你好") (detectErrors "great") 0 = none
    ∧ (analyzeUserLevel ⟨1, 1, 0, none⟩ "你好" "great" 0).userLevel = none :=
  ⟨((claim_c1_min_interactions_gate ⟨1, 1, 0, none⟩ "你好" "great" 0).2.2.1 (by decide)).1,
   ((claim_c1_min_interactions_gate ⟨1, 1, 0, none⟩ "你好" "great" 0).2.2.1 (by decide)).2⟩

/-- Spec-side tier ranking: beginner below elementary below intermediate
below advanced. -/
def levelRank : Level → Nat
  | Level.beginner => 0
  | Level.elementary => 1
  | Level.intermediate => 2
  | Level.advanced => 3

/-- Spec-side predicate, following the specification words: both the
accumulated success rate and the complexity of the current message exceed
the thresholds of the tier; beginner has no thresholds. -/
def tierPasses (successRate complexity : ℚ) : Level → Bool
  | Level.advanced => successRate > SUCCESS_RATE_ADVANCED && complexity > COMPLEXITY_ADVANCED
  | Level.intermediate =>
      successRate > SUCCESS_RATE_INTERMEDIATE && complexity > COMPLEXITY_INTERMEDIATE
  | Level.elementary =>
      successRate > SUCCESS_RATE_ELEMENTARY && complexity > COMPLEXITY_ELEMENTARY
  | Level.beginner => true

/-- The candidate tiers in threshold order, highest first. -/
def tierOrderDesc : List Level :=
  [Level.advanced, Level.intermediate, Level.elementary]

/-- Spec-side tier selection, following the specification words: the
highest tier whose thresholds are both exceeded, defaulting to beginner. -/
def specTierSelect (successRate complexity : ℚ) : Level :=
  (tierOrderDesc.find? (tierPasses successRate complexity)).getD Level.beginner

/-- Fixed constants per tier: standardized level and confidence, as
looked up by the assessor. -/
def tierConstants : Level → Nat × ℚ
  | Level.advanced => (HSK_ADVANCED, 0.9)
  | Level.intermediate => (HSK_INTERMEDIATE, 0.8)
  | Level.elementary => (HSK_ELEMENTARY, 0.7)
  | Level.beginner => (HSK_BEGINNER, 0.5)

/-- The tier ladder of the source agrees with the spec-side selection:
it picks the highest passing tier with its fixed constants, and every
passing tier ranks at or below the picked one. -/
lemma selectTier_eq_spec (rate c : ℚ) :
    (selectTier rate c).1 = specTierSelect rate c
    ∧ (selectTier rate c).2 = tierConstants (selectTier rate c).1
    ∧ ∀ t, tierPasses rate c t = true → levelRank t ≤ levelRank (selectTier rate c).1 := by
  have hadvIff : tierPasses rate c Level.advanced = true ↔
      (rate > SUCCESS_RATE_ADVANCED ∧ c > COMPLEXITY_ADVANCED) := by
    simp [tierPasses]
  have hintIff : tierPasses rate c Level.intermediate = true ↔
      (rate > SUCCESS_RATE_INTERMEDIATE ∧ c > COMPLEXITY_INTERMEDIATE) := by
    simp [tierPasses]
  have heleIff : tierPasses rate c Level.elementary = true ↔
      (rate > SUCCESS_RATE_ELEMENTARY ∧ c > COMPLEXITY_ELEMENTARY) := by
    simp [tierPasses]
  unfold selectTier specTierSelect tierOrderDesc
  by_cases h1 : rate > SUCCESS_RATE_ADVANCED ∧ c > COMPLEXITY_ADVANCED
  · have hp : tierPasses rate c Level.advanced = true := hadvIff.mpr h1
    refine ⟨?_, ?_, ?_⟩
    · simp [h1, List.find?, hp]
    · simp [h1, tierConstants]
    · intro t _
      simp only [h1, if_true]
      cases t <;> simp [levelRank]
  · have hp : tierPasses rate c Level.advanced = false := by
      rw [Bool.eq_false_iff]
      intro hco
      exact h1 (hadvIff.mp hco)
    by_cases h2 : rate > SUCCESS_RATE_INTERMEDIATE ∧ c > COMPLEXITY_INTERMEDIATE
    · have hp2 : tierPasses rate c Level.intermediate = true := hintIff.mpr h2
      refine ⟨?_, ?_, ?_⟩
      · simp [h1, h2, List.find?, hp, hp2]
      · simp [h1, h2, tierConstants]
      · intro t ht
        simp only [h1, h2, if_false, if_true]
        cases t <;> simp_all [levelRank]
    · have hp2 : tierPasses rate c Level.intermediate = false := by
        rw [Bool.eq_false_iff]
        intro hco
        exact h2 (hintIff.mp hco)
      by_cases h3 : rate > SUCCESS_RATE_ELEMENTARY ∧ c > COMPLEXITY_ELEMENTARY
      · have hp3 : tierPasses rate c Level.elementary = true := heleIff.mpr h3
        refine ⟨?_, ?_, ?_⟩
        · simp [h1, h2, h3, List.find?, hp, hp2, hp3]
        · simp [h1, h2, h3, tierConstants]
        · intro t ht
          simp only [h1, h2, h3, if_false, if_true]
          cases t <;> simp_all [levelRank]
      · have hp3 : tierPasses rate c Level.elementary = false := by
          rw [Bool.eq_false_iff]
          intro hco
          exact h3 (heleIff.mp hco)
        refine ⟨?_, ?_, ?_⟩
        · simp [h1, h2, h3, List.find?, hp, hp2, hp3]
        · simp [h1, h2, h3, tierConstants]
        · intro t ht
          simp only [h1, h2, h3, if_false]
          cases t <;> simp_all [levelRank]

/-- Under the chosen tier the ladder only reports advanced when the
complexity argument strictly exceeds the advanced cut-off. -/
lemma selectTier_advanced_implies (rate c : ℚ) :
    (selectTier rate c).1 = Level.advanced → c > COMPLEXITY_ADVANCED := by
  unfold selectTier
  split_ifs with h1 h2 h3 <;> intro h
  · exact h1.2
  · exact absurd h (by simp)
  · exact absurd h (by simp)
  · exact absurd h (by simp)

/-- C2 counterexample: the documented scenario is impossible. No run of
three exchanges from a fresh assessor can have a current message whose
complexity exceeds the advanced threshold (the score is capped at six and
the advanced branch requires strictly more than six), so no such run ends
with an advanced 5-0.9 profile. -/
theorem claim_c2_counterexample :
    ¬ ∃ (m1 a1 m2 a2 m3 a3 : String) (v n1 n2 n3 : Nat) (lvl : UserLevel),
        (6 : ℚ) < calculateComplexity m3
        ∧ (analyzeUserLevel (analyzeUserLevel (analyzeUserLevel ⟨0, 0, v, none⟩ m1 a1 n1)
              m2 a2 n2) m3 a3 n3).userLevel = some lvl
        ∧ lvl.level = Level.advanced ∧ lvl.hskLevel = 5 ∧ lvl.confidence = 0.9 := by
  rintro ⟨m1, a1, m2, a2, m3, a3, v, n1, n2, n3, lvl, hc, -⟩
  exact absurd hc (not_lt.mpr (calculateComplexity_le_six m3))

/-- C2 (amended): whenever a profile is produced, its tier is the highest
tier whose success-rate and complexity thresholds are both exceeded
(beginner by default) and its standardized level and confidence are the
fixed looked-up constants; moreover the complexity score is capped at six
while the advanced branch requires strictly more than six, so an
assessment of a real message never produces the advanced tier. -/
theorem claim_c2_tier_selection (sc ec v e now : Nat) (c : ℚ) :
    (∀ lvl, updateUserLevel sc ec v c e now = some lvl →
        lvl.level = specTierSelect (successRateOf sc ec) c
        ∧ (lvl.hskLevel, lvl.confidence) = tierConstants lvl.level
        ∧ ∀ t, tierPasses (successRateOf sc ec) c t = true →
            levelRank t ≤ levelRank lvl.level)
    ∧ (∀ text : String, calculateComplexity text ≤ 6)
    ∧ (∀ (m : String) (lvl : UserLevel),
        updateUserLevel sc ec v (calculateComplexity m) e now = some lvl →
        lvl.level ≠ Level.advanced) := by
  refine ⟨?_, fun text => calculateComplexity_le_six text, ?_⟩
  · intro lvl hlvl
    unfold updateUserLevel at hlvl
    split at hlvl
    · exact absurd hlvl (by simp)
    · obtain ⟨hs, ht, hrest⟩ := selectTier_eq_spec (successRateOf sc ec) c
      obtain rfl : (⟨(selectTier (successRateOf sc ec) c).1,
          (selectTier (successRateOf sc ec) c).2.1,
          (selectTier (successRateOf sc ec) c).2.2,
          determineStrengths (successRateOf sc ec) c v,
          determineWeaknesses e (successRateOf sc ec) v, now⟩ : UserLevel) = lvl :=
        Option.some.injEq _ _ ▸ hlvl
      refine ⟨hs, ?_, hrest⟩
      have := ht
      simp only [Prod.ext_iff] at this
      exact Prod.ext this.1 this.2
  · intro m lvl hlvl
    unfold updateUserLevel at hlvl
    split at hlvl
    · exact absurd hlvl (by simp)
    · obtain rfl : (⟨(selectTier (successRateOf sc ec) (calculateComplexity m)).1,
          (selectTier (successRateOf sc ec) (calculateComplexity m)).2.1,
          (selectTier (successRateOf sc ec) (calculateComplexity m)).2.2,
          determineStrengths (successRateOf sc ec) (calculateComplexity m) v,
          determineWeaknesses e (successRateOf sc ec) v, now⟩ : UserLevel) = lvl :=
        Option.some.injEq _ _ ▸ hlvl
      intro hadv
      have hgt := selectTier_advanced_implies _ _ hadv
      have hle := calculateComplexity_le_six m
      rw [COMPLEXITY_ADVANCED] at hgt
      linarith

/-- The empty text has complexity zero. -/
lemma calculateComplexity_empty : calculateComplexity "" = 0 := by
  rw [calculateComplexity_eq]
  norm_num [show chineseCharCount "" = 0 from rfl, show wordCount "" = 1 from rfl,
    show hasComplexStructure "" = false from rfl]

/-- C2 witness: with three recorded successes and complexity five, the
produced profile is the intermediate tier with its looked-up constants,
and the profile produced for the empty message is not advanced. -/
theorem claim_c2_witness :
    ((⟨Level.intermediate, 3, 0.8, ["Good comprehension"], ["Limited vocabulary"], 0⟩ :
        UserLevel).level = specTierSelect (successRateOf 3 0) 5)
    ∧ calculateComplexity "" ≤ 6
    ∧ (⟨Level.beginner, 1, 0.5, ["Good comprehension"], ["Limited vocabulary"], 0⟩ :
        UserLevel).level ≠ Level.advanced :=
  ⟨((claim_c2_tier_selection 3 0 0 0 0 5).1
      ⟨Level.intermediate, 3, 0.8, ["Good comprehension"], ["Limited vocabulary"], 0⟩
      (by
        norm_num [updateUserLevel, MIN_INTERACTIONS, successRateOf, selectTier,
          SUCCESS_RATE_ADVANCED, SUCCESS_RATE_INTERMEDIATE, SUCCESS_RATE_ELEMENTARY,
          COMPLEXITY_ADVANCED, COMPLEXITY_INTERMEDIATE, COMPLEXITY_ELEMENTARY,
          HSK_INTERMEDIATE, determineStrengths, determineWeaknesses,
          SUCCESS_GOOD, SUCCESS_POOR, VOCAB_GROWING, VOCAB_LIMITED, HIGH_ERRORS,
          COMPLEXITY_MAX_CHAR_POINTS])).1,
   (claim_c2_tier_selection 3 0 0 0 0 5).2.1 "",
   (claim_c2_tier_selection 3 0 0 0 0 5).2.2 ""
      ⟨Level.beginner, 1, 0.5, ["Good comprehension"], ["Limited vocabulary"], 0⟩
      (by
        norm_num [calculateComplexity_empty, updateUserLevel, MIN_INTERACTIONS,
          successRateOf, selectTier,
          SUCCESS_RATE_ADVANCED, SUCCESS_RATE_INTERMEDIATE, SUCCESS_RATE_ELEMENTARY,
          COMPLEXITY_ADVANCED, COMPLEXITY_INTERMEDIATE, COMPLEXITY_ELEMENTARY,
          HSK_BEGINNER, determineStrengths, determineWeaknesses,
          SUCCESS_GOOD, SUCCESS_POOR, VOCAB_GROWING, VOCAB_LIMITED, HIGH_ERRORS,
          COMPLEXITY_MAX_CHAR_POINTS])⟩

/-- Outcome of one simulated fetch attempt: a response with an HTTP
status, or a thrown transport-level failure. -/
inductive FetchOutcome
  | resp (status : Nat)
  | netError
  deriving DecidableEq, Repr

/-- Embedding of the ok flag of a fetch response: status in the 200
range. -/
def isOkStatus (s : Nat) : Bool :=
  200 ≤ s && s < 300

/-- Embedding of shouldRetry: the status is one of the retryable status
codes. -/
def shouldRetry (status : Nat) (retryableStatusCodes : List Nat) : Bool :=
  retryableStatusCodes.contains status

/-- Options of fetchWithRetry, with delays as rationals. -/
structure RetryConfig where
  maxRetries : Nat
  initialDelay : ℚ
  maxDelay : ℚ
  backoffMultiplier : ℚ
  retryableStatusCodes : List Nat

/-- One backoff update: multiply the current delay and cap it at the
maximum. -/
def backoffStep (mult maxDelay x : ℚ) : ℚ :=
  min (x * mult) maxDelay

/-- Recursive core of fetchWithRetry over the scripted attempt outcomes:
remaining counts the retries still allowed (zero on the final attempt),
and the returned list collects the waits performed before each retry.
Calls past the end of the script are not reached by the program and are
modelled as a transport failure. -/
def fetchWithRetryGo (retryable : List Nat) (maxDelay mult : ℚ) :
    List FetchOutcome → Nat → ℚ → Except Unit Nat × List ℚ
  | [], _, _ => (Except.error (), [])
  | FetchOutcome.resp s :: rest, remaining, currentDelay =>
    if isOkStatus s || !shouldRetry s retryable then (Except.ok s, [])
    else if remaining = 0 then (Except.ok s, [])
    else
      let r := fetchWithRetryGo retryable maxDelay mult rest (remaining - 1)
        (backoffStep mult maxDelay currentDelay)
      (r.1, currentDelay :: r.2)
  | FetchOutcome.netError :: rest, remaining, currentDelay =>
    if remaining = 0 then (Except.error (), [])
    else
      let r := fetchWithRetryGo retryable maxDelay mult rest (remaining - 1)
        (backoffStep mult maxDelay currentDelay)
      (r.1, currentDelay :: r.2)

/-- Embedding of fetchWithRetry: run the attempt loop with the configured
retry budget and initial delay, returning the final result together with
the performed waits. -/
def fetchWithRetry (outcomes : List FetchOutcome) (cfg : RetryConfig) :
    Except Unit Nat × List ℚ :=
  fetchWithRetryGo cfg.retryableStatusCodes cfg.maxDelay cfg.backoffMultiplier
    outcomes cfg.maxRetries cfg.initialDelay

/-- The delay recurrence of the source: the first wait is the initial
delay as given, every later wait multiplies the previous one by the
backoff multiplier and caps it at the maximum delay. -/
def delaySeq (initialDelay maxDelay mult : ℚ) : Nat → ℚ
  | 0 => initialDelay
  | i + 1 => backoffStep mult maxDelay (delaySeq initialDelay maxDelay mult i)

/-- The delay recurrence is the iterate of the backoff update. -/
lemma delaySeq_eq_iterate (d c m : ℚ) (i : Nat) :
    delaySeq d c m i = (backoffStep m c)^[i] d := by
  induction i with
  | zero => rfl
  | succ i ih => rw [delaySeq, ih, Function.iterate_succ_apply']

/-- The wait list produced by the retry loop is an initial segment of the
iterated backoff update applied to the starting delay. -/
lemma fetchWithRetryGo_waits (R : List Nat) (c m : ℚ) :
    ∀ (outcomes : List FetchOutcome) (remaining : Nat) (d : ℚ),
    ∃ n, (fetchWithRetryGo R c m outcomes remaining d).2
      = (List.range n).map fun i => (backoffStep m c)^[i] d := by
  intro outcomes
  induction outcomes with
  | nil => exact fun _ _ => ⟨0, rfl⟩
  | cons o rest ih =>
    intro remaining d
    cases o with
    | resp s =>
      by_cases hret : (isOkStatus s || !shouldRetry s R) = true
      · exact ⟨0, by simp [fetchWithRetryGo, hret]⟩
      · by_cases hrem : remaining = 0
        · exact ⟨0, by simp [fetchWithRetryGo, hret, hrem]⟩
        · obtain ⟨n, hn⟩ := ih (remaining - 1) (backoffStep m c d)
          refine ⟨n + 1, ?_⟩
          simp only [fetchWithRetryGo, hret, hrem, if_false, Bool.false_eq_true]
          rw [hn, List.range_succ_eq_map, List.map_cons, List.map_map]
          refine congrArg₂ _ rfl (List.map_congr_left fun i _ => ?_)
          simp [Function.iterate_succ_apply]
    | netError =>
      by_cases hrem : remaining = 0
      · exact ⟨0, by simp [fetchWithRetryGo, hrem]⟩
      · obtain ⟨n, hn⟩ := ih (remaining - 1) (backoffStep m c d)
        refine ⟨n + 1, ?_⟩
        simp only [fetchWithRetryGo, hrem, if_false]
        rw [hn, List.range_succ_eq_map, List.map_cons, List.map_map]
        refine congrArg₂ _ rfl (List.map_congr_left fun i _ => ?_)
        simp [Function.iterate_succ_apply]

/-- Every performed wait equals the delay recurrence at its position. -/
lemma fetchWithRetry_wait_eq (outcomes : List FetchOutcome) (cfg : RetryConfig)
    (i : Nat) (w : ℚ)
    (h : (fetchWithRetry outcomes cfg).2.get? i = some w) :
    w = delaySeq cfg.initialDelay cfg.maxDelay cfg.backoffMultiplier i := by
  obtain ⟨n, hn⟩ := fetchWithRetryGo_waits cfg.retryableStatusCodes cfg.maxDelay
    cfg.backoffMultiplier outcomes cfg.maxRetries cfg.initialDelay
  rw [fetchWithRetry] at h
  rw [hn] at h
  rw [List.get?_eq_getElem?, List.getElem?_map] at h
  by_cases hi : i < n
  · rw [List.getElem?_range hi] at h
    simp only [Option.map_some', Option.some.injEq] at h
    rw [delaySeq_eq_iterate]
    exact h.symm
  · have hlen : (List.range n).length ≤ i := by
      rw [List.length_range]
      omega
    rw [List.getElem?_eq_none hlen] at h
    exact absurd h (by simp)

/-- Closed form of the iterated backoff update: under a nonnegative
multiplier and an initial delay between zero and the cap, the i-th delay
is the initial delay times the i-th power of the multiplier, capped. -/
lemma iterate_backoffStep_eq (m c d : ℚ) (hm : 0 ≤ m) (hd : 0 ≤ d) (hdc : d ≤ c)
    (i : Nat) :
    (backoffStep m c)^[i] d = min (d * m ^ i) c := by
  induction i with
  | zero => simp [min_eq_left hdc]
  | succ i ih =>
    rw [Function.iterate_succ_apply', ih, backoffStep]
    rcases le_or_lt (d * m ^ i) c with hA | hB
    · rw [min_eq_left hA, pow_succ, ← mul_assoc]
    · have hc0 : 0 ≤ c := le_trans hd hdc
      have hm1 : 1 < m := by
        by_contra hle
        push_neg at hle
        have hpow : m ^ i ≤ 1 := pow_le_one₀ hm hle
        nlinarith
      have h1 : c ≤ c * m := by nlinarith
      have h2 : c ≤ d * m ^ (i + 1) := by
        have : c * m ≤ d * m ^ i * m := by nlinarith
        calc c ≤ c * m := h1
          _ ≤ d * m ^ i * m := this
          _ = d * m ^ (i + 1) := by ring
      rw [min_eq_right (le_of_lt hB), min_eq_right h1, min_eq_right h2]

/-- C4 counterexample: with an initial delay of 20000 above the maximum
delay of 10000, the first wait is the raw initial delay 20000, not the
capped value that the claimed formula predicts. -/
theorem claim_c4_counterexample :
    ((fetchWithRetry [FetchOutcome.resp 503, FetchOutcome.resp 200]
        ⟨3, 20000, 10000, 2, [408, 429, 500, 502, 503, 504]⟩).2.get? 0
      = some 20000)
    ∧ (20000 : ℚ) ≠ min ((20000 : ℚ) * (2 : ℚ) ^ (0 : Nat)) 10000 := by
  constructor
  · norm_num [fetchWithRetry, fetchWithRetryGo, isOkStatus, shouldRetry, backoffStep]
  · norm_num

/-- C4 (amended): the scripted run 503, 503, 200 with three retries,
initial delay 1000 and multiplier 2 returns the 200 response after
exactly two waits of 1000 and 2000; every wait follows the recurrence
whose first value is the raw initial delay and whose later values
multiply by the backoff multiplier and cap at the maximum delay; and
whenever the multiplier is nonnegative and the initial delay lies between
zero and the maximum delay this equals the initial delay times the i-th
power of the multiplier, capped at the maximum delay. -/
theorem claim_c4_retry_backoff :
    (fetchWithRetry [FetchOutcome.resp 503, FetchOutcome.resp 503, FetchOutcome.resp 200]
        ⟨3, 1000, 10000, 2, [408, 429, 500, 502, 503, 504]⟩
      = (Except.ok 200, [1000, 2000]))
    ∧ (∀ (outcomes : List FetchOutcome) (cfg : RetryConfig) (i : Nat) (w : ℚ),
        (fetchWithRetry outcomes cfg).2.get? i = some w →
        w = delaySeq cfg.initialDelay cfg.maxDelay cfg.backoffMultiplier i)
    ∧ (∀ (outcomes : List FetchOutcome) (cfg : RetryConfig) (i : Nat) (w : ℚ),
        0 ≤ cfg.backoffMultiplier → 0 ≤ cfg.initialDelay →
        cfg.initialDelay ≤ cfg.maxDelay →
        (fetchWithRetry outcomes cfg).2.get? i = some w →
        w = min (cfg.initialDelay * cfg.backoffMultiplier ^ i) cfg.maxDelay) := by
  refine ⟨?_, fun o cfg i w h => fetchWithRetry_wait_eq o cfg i w h, ?_⟩
  · norm_num [fetchWithRetry, fetchWithRetryGo, isOkStatus, shouldRetry, backoffStep]
  · intro o cfg i w hm hd hdc h
    rw [fetchWithRetry_wait_eq o cfg i w h, delaySeq_eq_iterate,
      iterate_backoffStep_eq _ _ _ hm hd hdc]

/-- C4 witness: in the scripted run 503, 503, 200 with the default
options, the second wait is 2000 which matches the capped power
formula. -/
theorem claim_c4_witness :
    (2000 : ℚ) = min ((1000 : ℚ) * (2 : ℚ) ^ (1 : Nat)) 10000 :=
  claim_c4_retry_backoff.2.2
    [FetchOutcome.resp 503, FetchOutcome.resp 503, FetchOutcome.resp 200]
    ⟨3, 1000, 10000, 2, [408, 429, 500, 502, 503, 504]⟩ 1 2000
    (by norm_num) (by norm_num) (by norm_num)
    (by norm_num [fetchWithRetry, fetchWithRetryGo, isOkStatus, shouldRetry, backoffStep])

/-- Rate-limit constant WINDOW_MS. -/
def RATE_WINDOW_MS : Nat := 60000

/-- Rate-limit constant MAX_REQUESTS. -/
def RATE_MAX_REQUESTS : Nat := 20

/-- Embedding of the per-client rate-limit record: request count and the
timestamp at which the window resets. -/
structure RateRecord where
  count : Nat
  resetTime : Nat
  deriving DecidableEq, Repr

/-- Pointwise update of the in-memory rate-limit map. -/
def rateUpdate (m : String → Option RateRecord) (k : String) (r : RateRecord) :
    String → Option RateRecord :=
  fun q => if q = k then some r else m q

/-- Embedding of checkRateLimit from the chat route: a missing or expired
record is recreated with count one and a fresh window and the call is
allowed; a full record denies without mutation; otherwise the count is
incremented in place and the call is allowed. -/
def checkRateLimit (now : Nat) (key : String) (m : String → Option RateRecord) :
    Bool × (String → Option RateRecord) :=
  match m key with
  | none => (true, rateUpdate m key ⟨1, now + RATE_WINDOW_MS⟩)
  | some record =>
    if now > record.resetTime then (true, rateUpdate m key ⟨1, now + RATE_WINDOW_MS⟩)
    else if record.count ≥ RATE_MAX_REQUESTS then (false, m)
    else (true, rateUpdate m key ⟨record.count + 1, record.resetTime⟩)

/-- Sequential execution of several admission checks for one client key,
collecting the returned booleans and threading the map. -/
def runRateCalls (key : String) : List Nat → (String → Option RateRecord) →
    List Bool × (String → Option RateRecord)
  | [], m => ([], m)
  | t :: ts, m =>
    let r := checkRateLimit t key m
    let rest := runRateCalls key ts r.2
    (r.1 :: rest.1, rest.2)

/-- Behaviour of a run of calls that all fall inside the stored window:
the i-th call is allowed exactly while the count is below the ceiling,
and the count saturates at the ceiling while the reset time never
moves. -/
lemma runRateCalls_within (key : String) (R : Nat) :
    ∀ (ts : List Nat) (m : String → Option RateRecord) (c : Nat),
    m key = some ⟨c, R⟩ → (∀ t ∈ ts, t ≤ R) → c ≤ RATE_MAX_REQUESTS →
    (runRateCalls key ts m).1
        = (List.range ts.length).map (fun j => decide (c + j < RATE_MAX_REQUESTS))
    ∧ (runRateCalls key ts m).2 key = some ⟨min (c + ts.length) RATE_MAX_REQUESTS, R⟩ := by
  intro ts
  induction ts with
  | nil =>
    intro m c hrec _ hle
    refine ⟨rfl, ?_⟩
    simpa [runRateCalls, Nat.min_eq_left hle] using hrec
  | cons t ts ih =>
    intro m c hrec hwin hle
    have ht : t ≤ R := hwin t (List.mem_cons_self t ts)
    have hnotgt : ¬ t > R := by omega
    have hwin' : ∀ x ∈ ts, x ≤ R := fun x hx => hwin x (List.mem_cons_of_mem t hx)
    by_cases hcap : c ≥ RATE_MAX_REQUESTS
    · have hstep : checkRateLimit t key m = (false, m) := by
        simp [checkRateLimit, hrec, hnotgt, hcap]
      obtain ⟨h1, h2⟩ := ih m c hrec hwin' hle
      refine ⟨?_, ?_⟩
      · show (checkRateLimit t key m).1 ::
            (runRateCalls key ts (checkRateLimit t key m).2).1 = _
        rw [hstep]
        simp only [h1, List.length_cons, List.range_succ_eq_map, List.map_cons, List.map_map]
        refine congrArg₂ List.cons ?_ (List.map_congr_left fun j _ => ?_)
        · have hnlt : decide (c + 0 < RATE_MAX_REQUESTS) = false := by
            simp only [decide_eq_false_iff_not]
            omega
          rw [hnlt]
        · simp only [Function.comp_apply, decide_eq_decide]
          omega
      · show (runRateCalls key ts (checkRateLimit t key m).2).2 key = _
        rw [hstep, h2]
        simp only [List.length_cons, Option.some.injEq, RateRecord.mk.injEq, and_true]
        omega
    · have hcap' : ¬ c ≥ RATE_MAX_REQUESTS := hcap
      have hstep : checkRateLimit t key m
          = (true, rateUpdate m key ⟨c + 1, R⟩) := by
        simp [checkRateLimit, hrec, hnotgt, hcap']
      obtain ⟨h1, h2⟩ := ih (rateUpdate m key ⟨c + 1, R⟩) (c + 1)
        (by simp [rateUpdate]) hwin' (by omega)
      refine ⟨?_, ?_⟩
      · show (checkRateLimit t key m).1 ::
            (runRateCalls key ts (checkRateLimit t key m).2).1 = _
        rw [hstep]
        simp only [h1, List.length_cons, List.range_succ_eq_map, List.map_cons, List.map_map]
        refine congrArg₂ List.cons ?_ (List.map_congr_left fun j _ => ?_)
        · have hlt : decide (c + 0 < RATE_MAX_REQUESTS) = true := by
            simp only [decide_eq_true_eq]
            omega
          rw [hlt]
        · simp only [Function.comp_apply, decide_eq_decide]
          omega
      · show (runRateCalls key ts (checkRateLimit t key m).2).2 key = _
        rw [hstep, h2]
        simp only [List.length_cons, Option.some.injEq, RateRecord.mk.injEq, and_true]
        omega

/-- C5: starting with no record for the key, twenty-one calls inside one
window are admitted twenty times and denied on the twenty-first, and any
call arriving strictly after the stored reset time recreates the record
with count one and a fresh window and is admitted. -/
theorem claim_c5_window_admission (m0 : String → Option RateRecord) (key : String)
    (t0 : Nat) (ts : List Nat)
    (hfresh : m0 key = none)
    (hlen : ts.length = 20)
    (hwin : ∀ t ∈ ts, t ≤ t0 + 60000) :
    (checkRateLimit t0 key m0).1 = true
    ∧ (checkRateLimit t0 key m0).2 key = some ⟨1, t0 + RATE_WINDOW_MS⟩
    ∧ (runRateCalls key ts (checkRateLimit t0 key m0).2).1
        = List.replicate 19 true ++ [false]
    ∧ (∀ (m : String → Option RateRecord) (k : String) (now : Nat) (r : RateRecord),
        m k = some r → now > r.resetTime →
        (checkRateLimit now k m).1 = true
        ∧ (checkRateLimit now k m).2 k = some ⟨1, now + RATE_WINDOW_MS⟩) := by
  have hrec : (checkRateLimit t0 key m0).2 key = some ⟨1, t0 + RATE_WINDOW_MS⟩ := by
    simp [checkRateLimit, hfresh, rateUpdate]
  refine ⟨by simp [checkRateLimit, hfresh], hrec, ?_, ?_⟩
  · obtain ⟨h1, _⟩ := runRateCalls_within key (t0 + RATE_WINDOW_MS) ts _ 1 hrec
      (by simpa [RATE_WINDOW_MS] using hwin) (by simp [RATE_MAX_REQUESTS])
    rw [h1, hlen]
    decide
  · intro m k now r hk hgt
    constructor
    · simp [checkRateLimit, hk, hgt]
    · simp [checkRateLimit, hk, hgt, rateUpdate]

/-- C5 witness: a fresh key, a first call at time zero and twenty further
calls at time zero give twenty admissions followed by one denial, and a
call after the reset time recreates the record. -/
theorem claim_c5_witness :
    (checkRateLimit 0 "k" (fun _ => none)).1 = true
    ∧ (runRateCalls "k" (List.replicate 20 0) (checkRateLimit 0 "k" (fun _ => none)).2).1
        = List.replicate 19 true ++ [false]
    ∧ (checkRateLimit 70000 "k"
        (fun q => if q = "k" then some ⟨20, 60000⟩ else none)).2 "k"
        = some ⟨1, 70000 + RATE_WINDOW_MS⟩ :=
  ⟨(claim_c5_window_admission (fun _ => none) "k" 0 (List.replicate 20 0)
      rfl (by decide) (by decide)).1,
   (claim_c5_window_admission (fun _ => none) "k" 0 (List.replicate 20 0)
      rfl (by decide) (by decide)).2.2.1,
   ((claim_c5_window_admission (fun _ => none) "k" 0 (List.replicate 20 0)
      rfl (by decide) (by decide)).2.2.2
      (fun q => if q = "k" then some ⟨20, 60000⟩ else none) "k" 70000 ⟨20, 60000⟩
      (by simp) (by decide)).2⟩

/-- C10: a denied request (existing record, window not elapsed, count at
the ceiling) returns false and leaves the whole map, in particular the
stored record, unchanged. -/
theorem claim_c10_denied_request_frame (m : String → Option RateRecord) (key : String)
    (now : Nat) (r : RateRecord)
    (hrec : m key = some r) (hwin : ¬ now > r.resetTime)
    (hcap : r.count ≥ RATE_MAX_REQUESTS) :
    (checkRateLimit now key m).1 = false ∧ (checkRateLimit now key m).2 = m := by
  constructor <;> simp [checkRateLimit, hrec, hwin, hcap]

/-- C10 witness: a full record inside its window is denied and the map is
untouched. -/
theorem claim_c10_witness :
    (checkRateLimit 50 "k" (fun q => if q = "k" then some ⟨20, 100⟩ else none)).1 = false
    ∧ (checkRateLimit 50 "k" (fun q => if q = "k" then some ⟨20, 100⟩ else none)).2
        = (fun q => if q = "k" then some ⟨20, 100⟩ else none) :=
  claim_c10_denied_request_frame (fun q => if q = "k" then some ⟨20, 100⟩ else none)
    "k" 50 ⟨20, 100⟩ (by simp) (by decide) (by decide)

/-- Model of browser local storage: an association list of keys to
serialized values together with a byte capacity; a write beyond the
capacity raises the quota error (the only storage failure modelled). -/
structure Store where
  entries : List (String × String)
  capacity : Nat
  deriving DecidableEq, Repr

/-- Lookup in an association list of entries. -/
def lookupEntries (k : String) : List (String × String) → Option String
  | [] => none
  | e :: l => if e.1 == k then some e.2 else lookupEntries k l

/-- Lookup of a stored value by key. -/
def storeLookup (s : Store) (k : String) : Option String :=
  lookupEntries k s.entries

/-- Total byte size of all entries, counting keys and values in UTF-8. -/
def entriesSize (l : List (String × String)) : Nat :=
  l.foldr (fun e acc => e.1.utf8ByteSize + e.2.utf8ByteSize + acc) 0

/-- Replace the value under an existing key or append a fresh entry. -/
def setEntries (l : List (String × String)) (k v : String) : List (String × String) :=
  if l.any fun e => e.1 == k then
    l.map fun e => if e.1 == k then (k, v) else e
  else l ++ [(k, v)]

/-- Raw storage write: stores the pair or raises the quota error when the
resulting contents would not fit the capacity. -/
def storeSetItem (s : Store) (k v : String) : Except Unit Store :=
  let l := setEntries s.entries k v
  if entriesSize l ≤ s.capacity then Except.ok ⟨l, s.capacity⟩
  else Except.error ()

/-- Raw storage removal; removal never fails, and removing an absent key
is a silent no-op. -/
def storeRemoveItem (s : Store) (k : String) : Store :=
  ⟨s.entries.filter fun e => !(e.1 == k), s.capacity⟩

/-- Storage key of the conversation history. -/
def KEY_MESSAGES : String := "chinese-tutor-messages"

/-- Storage key of the topic set. -/
def KEY_TOPICS : String := "chinese-tutor-topics"

/-- Storage key of the learned-vocabulary set. -/
def KEY_WORDS : String := "chinese-tutor-words"

/-- The priority list of clearOldestData. -/
def keysToCheck : List String := [KEY_MESSAGES, KEY_TOPICS, KEY_WORDS]

/-- Embedding of clearOldestData: the loop removes one key and then
breaks after the first removal that does not throw; since removal never
fails, only the first listed key (the conversation history) is ever
touched, even when that key is absent and the removal is a no-op. -/
def clearOldestData (s : Store) : Store :=
  match keysToCheck with
  | [] => s
  | k :: _ => storeRemoveItem s k

/-- The fixed quota of setItemSafe in bytes: five binary megabytes. The
source compares sizeInMB with 5, which on byte counts is this strict
comparison. -/
def STORAGE_QUOTA_BYTES : Nat := 5 * 1024 * 1024

/-- Embedding of setItemSafe. The JSON serialization is abstracted: the
value argument is the already-serialized string whose Blob size the
source measures. An oversized value is refused without a write; a write
failing with the quota error triggers clearOldestData and a single retry;
the function is total, so it never throws. -/
def setItemSafe (s : Store) (key value : String) : Bool × Store :=
  let serialized := value
  let sizeInBytes := serialized.utf8ByteSize
  if sizeInBytes > STORAGE_QUOTA_BYTES then (false, s)
  else
    match storeSetItem s key serialized with
    | Except.ok s2 => (true, s2)
    | Except.error _ =>
      let s1 := clearOldestData s
      match storeSetItem s1 key serialized with
      | Except.ok s2 => (true, s2)
      | Except.error _ => (false, s1)

/-- Removing the entries of one key preserves the lookup of every other
key. -/
lemma lookupEntries_filter_ne (k kr : String) (hk : k ≠ kr) :
    ∀ l : List (String × String),
    lookupEntries k (l.filter fun e => !(e.1 == kr)) = lookupEntries k l := by
  intro l
  induction l with
  | nil => rfl
  | cons e l ih =>
    rw [List.filter_cons]
    by_cases he : (e.1 == kr) = true
    · have hek : (e.1 == k) = false := by
        rw [beq_eq_false_iff_ne]
        intro hc
        rw [beq_iff_eq] at he
        exact hk (by rw [← hc, he])
      have hrhs : lookupEntries k (e :: l) = lookupEntries k l := by
        simp [lookupEntries, hek]
      rw [if_neg (by simp [he]), hrhs]
      exact ih
    · rw [if_pos (by simp [he])]
      by_cases hek : (e.1 == k) = true
      · simp [lookupEntries, hek]
      · simp only [lookupEntries]
        rw [if_neg hek, if_neg hek]
        exact ih

/-- After removing the entries of a key, that key is absent. -/
lemma lookupEntries_filter_self (kr : String) (l : List (String × String)) :
    lookupEntries kr (l.filter fun e => !(e.1 == kr)) = none := by
  induction l with
  | nil => rfl
  | cons e l ih =>
    rw [List.filter_cons]
    by_cases he : (e.1 == kr) = true
    · rw [if_neg (by simp [he])]
      exact ih
    · rw [if_pos (by simp [he])]
      simp only [lookupEntries]
      rw [if_neg he]
      exact ih

/-- C6 counterexample: a quota failure while the history key is absent
evicts nothing at all. The store holds only the topics key; the write
fails, clearOldestData removes the absent history key as a no-op and
breaks without trying the topics key, the retry fails again, and the
store is returned with exactly the same entries, contradicting the claim
that exactly one stored key (here necessarily the topics key) is
evicted. -/
theorem claim_c6_counterexample :
    (setItemSafe ⟨[("chinese-tutor-topics", "aaaaaaaa")], 40⟩ "k"
        "012345678901234567890123456789").1 = false
    ∧ (setItemSafe ⟨[("chinese-tutor-topics", "aaaaaaaa")], 40⟩ "k"
        "012345678901234567890123456789").2.entries
      = [("chinese-tutor-topics", "aaaaaaaa")] := by
  constructor <;> rfl

/-- C6 (amended): the safe store write never throws and (a) refuses an
oversized serialized value without any write; (b) on a storage-quota
failure removes the conversation-history key if present (a no-op when it
is absent; the lower-priority topics and vocabulary keys are never
reached because removal does not fail), retries exactly once, and returns
true if the retry succeeds and false if it fails again, while keys other
than the history key are never evicted. -/
theorem claim_c6_quota_safe_write (s : Store) (key value : String) :
    (value.utf8ByteSize > STORAGE_QUOTA_BYTES →
        setItemSafe s key value = (false, s))
    ∧ (value.utf8ByteSize ≤ STORAGE_QUOTA_BYTES →
        ∀ s2, storeSetItem s key value = Except.ok s2 →
        setItemSafe s key value = (true, s2))
    ∧ (value.utf8ByteSize ≤ STORAGE_QUOTA_BYTES →
        storeSetItem s key value = Except.error () →
        ∀ s2, storeSetItem (storeRemoveItem s KEY_MESSAGES) key value = Except.ok s2 →
        setItemSafe s key value = (true, s2))
    ∧ (value.utf8ByteSize ≤ STORAGE_QUOTA_BYTES →
        storeSetItem s key value = Except.error () →
        storeSetItem (storeRemoveItem s KEY_MESSAGES) key value = Except.error () →
        setItemSafe s key value = (false, storeRemoveItem s KEY_MESSAGES))
    ∧ (∀ k, k ≠ KEY_MESSAGES →
        storeLookup (clearOldestData s) k = storeLookup s k)
    ∧ storeLookup (clearOldestData s) KEY_MESSAGES = none := by
  refine ⟨?_, ?_, ?_, ?_, ?_, ?_⟩
  · intro hbig
    simp [setItemSafe, hbig]
  · intro hsize s2 hok
    simp [setItemSafe, Nat.not_lt.mpr hsize, hok]
  · intro hsize herr s2 hok
    simp [setItemSafe, Nat.not_lt.mpr hsize, herr, clearOldestData, keysToCheck, hok]
  · intro hsize herr herr2
    simp [setItemSafe, Nat.not_lt.mpr hsize, herr, clearOldestData, keysToCheck, herr2]
  · intro k hk
    simp only [clearOldestData, keysToCheck, storeLookup, storeRemoveItem]
    exact lookupEntries_filter_ne k KEY_MESSAGES hk s.entries
  · simp only [clearOldestData, keysToCheck, storeLookup, storeRemoveItem]
    exact lookupEntries_filter_self KEY_MESSAGES s.entries

/-- C6 witness: a small value that fits is written; an oversized value is
refused; a quota failure with the history key present evicts it and the
retry succeeds. -/
theorem claim_c6_witness :
    setItemSafe ⟨[], 100⟩ "k" "vv" = (true, ⟨[("k", "vv")], 100⟩)
    ∧ setItemSafe ⟨[("chinese-tutor-messages", "mmmmmmmmmmmmmmmmmmmmmmmmmmmmmm")], 60⟩
        "k" "0123456789012345678901234567890123456789"
      = (true, ⟨[("k", "0123456789012345678901234567890123456789")], 60⟩)
    ∧ storeLookup (clearOldestData ⟨[("chinese-tutor-topics", "x")], 9⟩) "chinese-tutor-topics"
      = storeLookup ⟨[("chinese-tutor-topics", "x")], 9⟩ "chinese-tutor-topics" :=
  ⟨(claim_c6_quota_safe_write ⟨[], 100⟩ "k" "vv").2.1 (by decide) ⟨[("k", "vv")], 100⟩ rfl,
   (claim_c6_quota_safe_write
        ⟨[("chinese-tutor-messages", "mmmmmmmmmmmmmmmmmmmmmmmmmmmmmm")], 60⟩
        "k" "0123456789012345678901234567890123456789").2.2.1
      (by decide) rfl ⟨[("k", "0123456789012345678901234567890123456789")], 60⟩ rfl,
   (claim_c6_quota_safe_write ⟨[("chinese-tutor-topics", "x")], 9⟩ "whatever" "v").2.2.2.2.1
      "chinese-tutor-topics" (by decide)⟩

/-- Untyped JavaScript value as stored in JSON form; not-a-number and
undefined are not needed by the stored data and are not modelled. -/
inductive JsValue
  | null
  | boolean (b : Bool)
  | number (q : ℚ)
  | str (s : String)
  | arr (elems : List JsValue)
  | obj (fields : List (String × JsValue))

/-- JavaScript truthiness of a value. -/
def truthy : JsValue → Bool
  | JsValue.null => false
  | JsValue.boolean b => b
  | JsValue.number q => decide (q ≠ 0)
  | JsValue.str s => decide (s ≠ "")
  | JsValue.arr _ => true
  | JsValue.obj _ => true

/-- Embedding of getItemSafe: parameterised by the JSON parser, which is
partial on raw strings. A missing key or a parse failure produces the
expression default-or-null of the source; the function is total, so it
never throws. -/
def getItemSafe (parse : String → Option JsValue) (s : Store) (key : String)
    (defaultValue : JsValue) : JsValue :=
  match storeLookup s key with
  | none => if truthy defaultValue then defaultValue else JsValue.null
  | some item =>
    match parse item with
    | some v => v
    | none => if truthy defaultValue then defaultValue else JsValue.null

/-- C8 counterexample: with the key missing, a supplied falsy default
(here the boolean false) is not returned; the call returns null
instead. -/
theorem claim_c8_counterexample :
    getItemSafe (fun _ => none) ⟨[], 100⟩ "k" (JsValue.boolean false) = JsValue.null
    ∧ JsValue.null ≠ JsValue.boolean false :=
  ⟨rfl, fun h => JsValue.noConfusion h⟩

/-- C8 (amended): the safe read returns the parsed stored value when the
key is present and parsing succeeds; when the key is missing or parsing
fails it returns the supplied default if that default is truthy and null
otherwise; it never throws. -/
theorem claim_c8_safe_read (parse : String → Option JsValue) (s : Store) (key : String)
    (d : JsValue) :
    (∀ item v, storeLookup s key = some item → parse item = some v →
        getItemSafe parse s key d = v)
    ∧ (storeLookup s key = none →
        getItemSafe parse s key d = if truthy d then d else JsValue.null)
    ∧ (∀ item, storeLookup s key = some item → parse item = none →
        getItemSafe parse s key d = if truthy d then d else JsValue.null) := by
  refine ⟨?_, ?_, ?_⟩ <;> intros <;> simp [getItemSafe, *]

/-- C8 witness: a present key parses and is returned; a missing key with
a truthy default returns that default. -/
theorem claim_c8_witness :
    getItemSafe (fun _ => some (JsValue.str "v")) ⟨[("k", "raw")], 100⟩ "k"
        (JsValue.boolean true) = JsValue.str "v"
    ∧ getItemSafe (fun _ => some (JsValue.str "v")) ⟨[], 100⟩ "k" (JsValue.boolean true)
        = if truthy (JsValue.boolean true) then JsValue.boolean true else JsValue.null :=
  ⟨(claim_c8_safe_read (fun _ => some (JsValue.str "v")) ⟨[("k", "raw")], 100⟩ "k"
      (JsValue.boolean true)).1 "raw" (JsValue.str "v") rfl rfl,
   (claim_c8_safe_read (fun _ => some (JsValue.str "v")) ⟨[], 100⟩ "k"
      (JsValue.boolean true)).2.1 rfl⟩

/-- Timed semantics of the debounced wrapper: the call list carries the
time and argument of each wrapper invocation, the second argument is the
pending timer (its firing deadline and captured argument). A new call
whose time is at or past the deadline lets the pending timer fire first;
an earlier call cancels and replaces it, as clearTimeout plus setTimeout
do in the source. The returned list holds the performed invocations of
the wrapped function. -/
def debounceRun {α : Type} (wait : Nat) : List (Nat × α) → Option (Nat × α) → List (Nat × α)
  | [], none => []
  | [], some p => [p]
  | (t, a) :: rest, none => debounceRun wait rest (some (t + wait, a))
  | (t, a) :: rest, some (d, b) =>
    if d ≤ t then (d, b) :: debounceRun wait rest (some (t + wait, a))
    else debounceRun wait rest (some (t + wait, a))

/-- Core of the burst property: with a pending timer armed by the
previous call and every following call arriving within the wait of its
predecessor, only the final timer fires. -/
lemma debounceRun_burst {α : Type} (wait : Nat) :
    ∀ (calls : List (Nat × α)) (t : Nat) (a : α),
    List.Chain' (fun p q => p.1 ≤ q.1 ∧ q.1 < p.1 + wait) ((t, a) :: calls) →
    debounceRun wait calls (some (t + wait, a))
      = [((((t, a) :: calls).getLast (by simp)).1 + wait,
          (((t, a) :: calls).getLast (by simp)).2)] := by
  intro calls
  induction calls with
  | nil =>
    intro t a _
    rfl
  | cons c rest ih =>
    obtain ⟨t', a'⟩ := c
    intro t a h
    rw [List.chain'_cons] at h
    obtain ⟨⟨h1, h2⟩, htail⟩ := h
    show (if t + wait ≤ t' then ((t + wait, a)) :: debounceRun wait rest (some (t' + wait, a'))
        else debounceRun wait rest (some (t' + wait, a'))) = _
    rw [if_neg (by omega), ih t' a' htail]
    simp [List.getLast_cons]

/-- C7: given a burst in which every call arrives within the wait of its
predecessor, the debounced wrapper invokes the wrapped function exactly
once, with the arguments of the last call, at the last call time plus the
wait. -/
theorem claim_c7_debounce {α : Type} (wait : Nat) (t0 : Nat) (a0 : α)
    (calls : List (Nat × α))
    (h : List.Chain' (fun p q => p.1 ≤ q.1 ∧ q.1 < p.1 + wait) ((t0, a0) :: calls)) :
    debounceRun wait ((t0, a0) :: calls) none
      = [((((t0, a0) :: calls).getLast (by simp)).1 + wait,
          (((t0, a0) :: calls).getLast (by simp)).2)] := by
  show debounceRun wait calls (some (t0 + wait, a0)) = _
  exact debounceRun_burst wait calls t0 a0 h

/-- C7 witness: five calls within 1000 milliseconds invoke the function
exactly once with the fifth argument, 1000 milliseconds after the last
call. -/
theorem claim_c7_witness :
    debounceRun 1000 [(0, "a"), (200, "b"), (400, "c"), (600, "d"), (900, "e")] none
      = [(1900, "e")] :=
  claim_c7_debounce 1000 0 "a" [(200, "b"), (400, "c"), (600, "d"), (900, "e")]
    (by
      simp only [List.chain'_cons, List.chain'_singleton, and_true]
      omega)

/-- The fixed bilingual topic keyword list of trackConversationTopics. -/
def topicKeywords : List String :=
  ["food", "restaurant", "eat", "吃", "食物", "餐厅",
   "shopping", "buy", "store", "买", "购物", "商店",
   "family", "parents", "children", "家人", "父母", "孩子",
   "work", "job", "office", "工作", "办公室",
   "travel", "trip", "vacation", "旅行", "度假",
   "weather", "rain", "sunny", "天气", "下雨", "晴天",
   "hobby", "music", "movie", "爱好", "音乐", "电影",
   "school", "study", "learn", "学校", "学习"]

/-- The keywords detected in a text, in keyword-list order. -/
def detectedTopics (content : String) : List String :=
  topicKeywords.filter fun kw => strIncludesCI content kw

/-- Deduplication keeping the first occurrence of each element, as the
JavaScript Set constructor does on iteration order. -/
def dedupFirstGo (seen : List String) : List String → List String
  | [] => []
  | a :: l => if a ∈ seen then dedupFirstGo seen l else a :: dedupFirstGo (a :: seen) l

/-- Spread of a Set built from a list: first occurrences in order. -/
def dedupFirst (l : List String) : List String :=
  dedupFirstGo [] l

/-- Embedding of trackConversationTopics: no keyword match leaves the
topic list unchanged; otherwise the detected keywords are prepended to
the previous topics, deduplicated keeping first occurrences, and the
first five are kept. -/
def trackConversationTopics (content : String) (prev : List String) : List String :=
  let d := detectedTopics content
  if d.isEmpty then prev
  else (dedupFirst (d ++ prev)).take 5

/-- Membership in the first-occurrence deduplication. -/
lemma mem_dedupFirstGo (x : String) :
    ∀ (l seen : List String), x ∈ dedupFirstGo seen l ↔ x ∈ l ∧ x ∉ seen := by
  intro l
  induction l with
  | nil =>
    intro seen
    simp [dedupFirstGo]
  | cons a l ih =>
    intro seen
    by_cases ha : a ∈ seen
    · rw [dedupFirstGo, if_pos ha, ih]
      constructor
      · rintro ⟨hx, hns⟩
        exact ⟨List.mem_cons_of_mem a hx, hns⟩
      · rintro ⟨hx, hns⟩
        rcases List.mem_cons.mp hx with rfl | hx
        · exact absurd ha hns
        · exact ⟨hx, hns⟩
    · rw [dedupFirstGo, if_neg ha, List.mem_cons, ih]
      constructor
      · rintro (rfl | ⟨hx, hns⟩)
        · exact ⟨List.mem_cons_self x l, ha⟩
        · refine ⟨List.mem_cons_of_mem a hx, fun hs => hns (List.mem_cons_of_mem a hs)⟩
      · rintro ⟨hx, hns⟩
        by_cases hxa : x = a
        · exact Or.inl hxa
        · rcases List.mem_cons.mp hx with rfl | hx
          · exact absurd rfl hxa
          · refine Or.inr ⟨hx, fun hmem => ?_⟩
            rcases List.mem_cons.mp hmem with rfl | hs
            · exact hxa rfl
            · exact hns hs

/-- The first-occurrence deduplication has no duplicates. -/
lemma nodup_dedupFirstGo :
    ∀ (l seen : List String), (dedupFirstGo seen l).Nodup := by
  intro l
  induction l with
  | nil =>
    intro seen
    simp [dedupFirstGo]
  | cons a l ih =>
    intro seen
    rw [dedupFirstGo]
    split
    · exact ih seen
    · rw [List.nodup_cons]
      refine ⟨?_, ih (a :: seen)⟩
      rw [mem_dedupFirstGo]
      rintro ⟨-, hns⟩
      exact hns (List.mem_cons_self a seen)

/-- C9: a text with no keyword match leaves the topic list unchanged; a
match produces the detected keywords prepended to the previous topics,
deduplicated keeping first occurrences and truncated to five; the result
of a match is always duplicate-free with at most five entries, and the
at-most-five duplicate-free invariant is preserved by every update. -/
theorem claim_c9_topic_set (content : String) (prev : List String) :
    (detectedTopics content = [] → trackConversationTopics content prev = prev)
    ∧ (detectedTopics content ≠ [] →
        trackConversationTopics content prev
          = (dedupFirst (detectedTopics content ++ prev)).take 5)
    ∧ (detectedTopics content ≠ [] →
        (trackConversationTopics content prev).Nodup
        ∧ (trackConversationTopics content prev).length ≤ 5)
    ∧ (prev.Nodup → prev.length ≤ 5 →
        (trackConversationTopics content prev).Nodup
        ∧ (trackConversationTopics content prev).length ≤ 5) := by
  have hmatch : detectedTopics content ≠ [] →
      trackConversationTopics content prev
        = (dedupFirst (detectedTopics content ++ prev)).take 5 := by
    intro h
    have : (detectedTopics content).isEmpty = false := by
      cases hd : detectedTopics content
      · exact absurd hd h
      · rfl
    simp [trackConversationTopics, this]
  have hbound : detectedTopics content ≠ [] →
      (trackConversationTopics content prev).Nodup
      ∧ (trackConversationTopics content prev).length ≤ 5 := by
    intro h
    rw [hmatch h]
    constructor
    · exact (nodup_dedupFirstGo (detectedTopics content ++ prev) []).sublist
        (List.take_sublist 5 _)
    · rw [List.length_take]
      exact min_le_left _ _
  refine ⟨?_, hmatch, hbound, ?_⟩
  · intro h
    simp [trackConversationTopics, h]
  · intro hnd hlen
    cases hd : detectedTopics content with
    | nil => simpa [trackConversationTopics, hd] using ⟨hnd, hlen⟩
    | cons a l =>
      have : detectedTopics content ≠ [] := by rw [hd]; exact List.cons_ne_nil a l
      exact hbound this

/-- C9 witness: the text mentions food, so the food keyword is prepended
to the previous topic list, and the result is duplicate-free with at
most five entries. -/
theorem claim_c9_witness :
    trackConversationTopics "I love food" ["work"]
      = (dedupFirst (detectedTopics "I love food" ++ ["work"])).take 5
    ∧ (trackConversationTopics "I love food" ["work"]).Nodup
    ∧ (trackConversationTopics "I love food" ["work"]).length ≤ 5 :=
  ⟨(claim_c9_topic_set "I love food" ["work"]).2.1 (by decide),
   ((claim_c9_topic_set "I love food" ["work"]).2.2.1 (by decide)).1,
   ((claim_c9_topic_set "I love food" ["work"]).2.2.1 (by decide)).2⟩

end ChineseTutor
